import Mathlib

/-!
Verification development for the Order-Management-System repository.

The repository ships a React frontend (`src/Sindhu/frontend/src/pages/CreateOrder.jsx`,
which also holds the Dashboard and OrdersList components) together with README/SETUP
documentation. The FastAPI backend and the fulfillment worker are described by the
specification but their source files are not present in the repository snapshot, so the
backend operations (`CreateOrder`, `ListOrders`, `GetStats`, `HealthCheck`) and the
worker's per-message state machine are modelled from the specification; each such
definition carries a doc comment saying so. The frontend functions (`validateForm`,
`handleSubmit`, `getStatusColor`) are embedded directly from the JSX source, with the
relevant fragment of JavaScript string/number coercion semantics made explicit.
-/

/-- Order status, one of `pending | processing | completed | failed` (spec §3). -/
inductive Status
  | pending
  | processing
  | completed
  | failed
deriving DecidableEq, Repr

/-- An order record (spec §3): identifier, item name, quantity, status, timestamps.
Timestamps are abstract `Nat` instants. -/
structure Order where
  id : Nat
  item_name : String
  quantity : Int
  status : Status
  created_at : Nat
  updated_at : Nat
deriving DecidableEq, Repr

/-- Modelled from the spec: the Order Store, a collection of order records. Orders are
only ever appended by `createOrder`, so the list order is creation order; `nextId` models
the unique-id generator ("generates a unique id", spec §4.1). -/
structure Store where
  orders : List Order
  nextId : Nat
deriving DecidableEq, Repr

/-- Modelled from the spec: the system state seen by the Order Service — the store plus
the Work Queue of order identifiers (spec §2). -/
structure Sys where
  store : Store
  queue : List Nat
deriving DecidableEq, Repr

/-- Modelled from the spec: input validation of `CreateOrder` — `item_name` non-empty and
at most 100 characters, `quantity` an integer in [1,1000] (spec §3, §4.1). -/
def validOrderInput (name : String) (q : Int) : Bool :=
  decide (name ≠ "") && decide (name.length ≤ 100) && decide (1 ≤ q) && decide (q ≤ 1000)

/-- Modelled from the spec: the record `CreateOrder` stores on success — fresh id, status
`pending`, `created_at = updated_at = now` (spec §4.1). -/
def newOrder (s : Sys) (name : String) (q : Int) (now : Nat) : Order :=
  { id := s.store.nextId
    item_name := name
    quantity := q
    status := Status.pending
    created_at := now
    updated_at := now }

/-- Modelled from the spec: `CreateOrder(item_name, quantity)` (spec §4.1). On invalid
input it fails with a validation error and performs no mutation (the returned state is
the input state); on valid input it stores the order with status `pending`, publishes the
id to the Work Queue and returns the stored record. -/
def createOrder (s : Sys) (name : String) (q : Int) (now : Nat) :
    Except String Order × Sys :=
  if validOrderInput name q then
    let o := newOrder s name q now
    (Except.ok o,
      { store := { orders := s.store.orders ++ [o], nextId := s.store.nextId + 1 }
        queue := s.queue ++ [o.id] })
  else
    (Except.error "ValidationError", s)

/-- Store invariant: every stored id is below the id generator, so freshly generated ids
are unique (spec §3: "`id` is unique across all orders for the lifetime of the store"). -/
def idsFresh (s : Sys) : Prop :=
  ∀ o ∈ s.store.orders, o.id < s.store.nextId

/-- C1: `CreateOrder` rejects every input with quantity ≤ 0 or > 1000 and every input
with empty or over-100-character item_name: it returns a validation error, issues no
create (the store's order list and the queue are exactly the input ones — the rejection
happens before any mutation). -/
theorem claim_C1_create_rejects_invalid (s : Sys) (name : String) (q : Int) (now : Nat)
    (h : q ≤ 0 ∨ 1000 < q ∨ name = "" ∨ 100 < name.length) :
    (createOrder s name q now).1 = Except.error "ValidationError" ∧
      (createOrder s name q now).2 = s := by
  have hv : validOrderInput name q = false := by
    simp only [validOrderInput, Bool.and_eq_false_iff, decide_eq_false_iff_not, not_le, not_not]
    rcases h with h | h | h | h
    · exact Or.inl (Or.inr (by omega))
    · exact Or.inr (by omega)
    · exact Or.inl (Or.inl (Or.inl h))
    · exact Or.inl (Or.inl (Or.inr (by omega)))
  simp [createOrder, hv]

theorem claim_C1_witness :
    ((1001 : Int) ≤ 0 ∨ (1000 : Int) < 1001 ∨ "Laptop" = "" ∨ 100 < "Laptop".length) ∧
      (createOrder ⟨⟨[], 0⟩, []⟩ "Laptop" 1001 0).1 = Except.error "ValidationError" ∧
      (createOrder ⟨⟨[], 0⟩, []⟩ "Laptop" 1001 0).2 = ⟨⟨[], 0⟩, []⟩ :=
  ⟨Or.inr (Or.inl (by decide)),
    claim_C1_create_rejects_invalid ⟨⟨[], 0⟩, []⟩ "Laptop" 1001 0
      (Or.inr (Or.inl (by decide)))⟩

/-- C3: on every valid input (item_name non-empty and ≤ 100 characters, quantity in
[1,1000]) and any store whose id generator is fresh, `CreateOrder` succeeds and returns
the stored record, whose id is unique (not among the stored ids), whose status is exactly
`pending`, and whose `created_at` equals its `updated_at`; the record is appended to the
store and its id is published to the queue. -/
theorem claim_C3_create_valid (s : Sys) (name : String) (q : Int) (now : Nat)
    (hfresh : idsFresh s)
    (hname : name ≠ "") (hlen : name.length ≤ 100) (hq1 : 1 ≤ q) (hq2 : q ≤ 1000) :
    (createOrder s name q now).1 = Except.ok (newOrder s name q now) ∧
      (newOrder s name q now).status = Status.pending ∧
      (newOrder s name q now).created_at = (newOrder s name q now).updated_at ∧
      (newOrder s name q now).id ∉ s.store.orders.map (fun o => o.id) ∧
      (createOrder s name q now).2.store.orders = s.store.orders ++ [newOrder s name q now] ∧
      (createOrder s name q now).2.queue = s.queue ++ [(newOrder s name q now).id] := by
  have hv : validOrderInput name q = true := by
    simp only [validOrderInput, Bool.and_eq_true, decide_eq_true_eq]
    exact ⟨⟨⟨hname, hlen⟩, hq1⟩, hq2⟩
  refine ⟨by simp [createOrder, hv], rfl, rfl, ?_, by simp [createOrder, hv], by simp [createOrder, hv]⟩
  intro hmem
  rcases List.mem_map.mp hmem with ⟨o, ho, hid⟩
  have := hfresh o ho
  simp only [newOrder] at hid
  omega

theorem claim_C3_witness :
    (createOrder ⟨⟨[], 0⟩, []⟩ "Laptop" 5 7).1 = Except.ok (newOrder ⟨⟨[], 0⟩, []⟩ "Laptop" 5 7) ∧
      (newOrder ⟨⟨[], 0⟩, []⟩ "Laptop" 5 7).status = Status.pending ∧
      (newOrder ⟨⟨[], 0⟩, []⟩ "Laptop" 5 7).created_at = (newOrder ⟨⟨[], 0⟩, []⟩ "Laptop" 5 7).updated_at ∧
      (newOrder ⟨⟨[], 0⟩, []⟩ "Laptop" 5 7).id ∉ (⟨⟨[], 0⟩, []⟩ : Sys).store.orders.map (fun o => o.id) ∧
      (createOrder ⟨⟨[], 0⟩, []⟩ "Laptop" 5 7).2.store.orders =
        (⟨⟨[], 0⟩, []⟩ : Sys).store.orders ++ [newOrder ⟨⟨[], 0⟩, []⟩ "Laptop" 5 7] ∧
      (createOrder ⟨⟨[], 0⟩, []⟩ "Laptop" 5 7).2.queue =
        (⟨⟨[], 0⟩, []⟩ : Sys).queue ++ [(newOrder ⟨⟨[], 0⟩, []⟩ "Laptop" 5 7).id] :=
  claim_C3_create_valid ⟨⟨[], 0⟩, []⟩ "Laptop" 5 7 (by intro o ho; simp at ho)
    (by decide) (by decide) (by decide) (by decide)

/-- Modelled from the spec: a single status write-back by the worker — sets `status` and
bumps `updated_at` (spec §3: "`updated_at` … set … on every status transition"). -/
def setStatus (o : Order) (st : Status) (t : Nat) : Order :=
  { o with status := st, updated_at := t }

/-- Modelled from the spec: the Fulfillment Worker's handling of one dequeued identifier
(spec §4.2). Look up the order (discard if not found); if its status is not `pending`,
skip the transition; otherwise write `processing` at time `now`, hold for the processing
delay, then write the terminal status (`completed` on the simulated-success path,
`failed` otherwise) at time `later`. -/
def processMessage (orders : List Order) (oid : Nat) (now later : Nat) (outcome : Bool) :
    List Order :=
  match orders.find? (fun o => o.id == oid) with
  | none => orders
  | some o =>
    if o.status = Status.pending then
      orders.map (fun p =>
        if p.id == oid then
          setStatus (setStatus p Status.processing now)
            (if outcome then Status.completed else Status.failed) later
        else p)
    else orders

/-- C4: worker processing is idempotent against duplicate delivery — if the order a queue
message names is already past `pending`, delivering the message (again) leaves the store,
and in particular that order's status and `updated_at`, unchanged. -/
theorem claim_C4_idempotent_delivery (orders : List Order) (o : Order)
    (now later : Nat) (outcome : Bool)
    (hfind : orders.find? (fun p => p.id == o.id) = some o)
    (hst : o.status ≠ Status.pending) :
    processMessage orders o.id now later outcome = orders := by
  simp [processMessage, hfind, hst]

theorem claim_C4_witness :
    processMessage [⟨3, "Laptop", 5, Status.completed, 0, 9⟩] 3 10 15 true =
      [⟨3, "Laptop", 5, Status.completed, 0, 9⟩] :=
  claim_C4_idempotent_delivery [⟨3, "Laptop", 5, Status.completed, 0, 9⟩]
    ⟨3, "Laptop", 5, Status.completed, 0, 9⟩ 10 15 true (by decide) (by decide)

/-- Modelled from the spec: `ListOrders(status_filter?)` (spec §4.1) — all orders,
optionally restricted to one status. The store keeps orders in creation order (they are
only appended by `createOrder`), which gives the specified creation-time-ascending,
stable ordering. -/
def listOrders (s : Sys) (filt : Option Status) : List Order :=
  match filt with
  | none => s.store.orders
  | some f => s.store.orders.filter (fun o => decide (o.status = f))

/-- Store invariant: the stored list is in creation-time-ascending order; it is
maintained because orders are only ever appended, with nondecreasing clock. -/
def creationSorted (s : Sys) : Prop :=
  s.store.orders.Pairwise (fun a b => a.created_at ≤ b.created_at)

/-- C5: on any creation-sorted store, `ListOrders` with filter `completed` returns
exactly the orders whose current status is `completed` (membership both ways), in
creation-time-ascending order; and `ListOrders` with no filter returns all orders in that
same creation order. -/
theorem claim_C5_list_orders (s : Sys) (h : creationSorted s) :
    (∀ o : Order, o ∈ listOrders s (some Status.completed) ↔
        o ∈ s.store.orders ∧ o.status = Status.completed) ∧
      (listOrders s (some Status.completed)).Pairwise
        (fun a b => a.created_at ≤ b.created_at) ∧
      listOrders s none = s.store.orders ∧
      (listOrders s none).Pairwise (fun a b => a.created_at ≤ b.created_at) := by
  refine ⟨fun o => ?_, ?_, rfl, h⟩
  · simp [listOrders]
  · exact List.Pairwise.sublist (List.filter_sublist _) h

theorem claim_C5_witness :
    ((⟨1, "B", 2, Status.completed, 4, 9⟩ : Order) ∈
        listOrders ⟨⟨[⟨0, "A", 1, Status.pending, 3, 3⟩, ⟨1, "B", 2, Status.completed, 4, 9⟩], 2⟩, []⟩
          (some Status.completed) ↔
      (⟨1, "B", 2, Status.completed, 4, 9⟩ : Order) ∈
          [⟨0, "A", 1, Status.pending, 3, 3⟩, ⟨1, "B", 2, Status.completed, 4, 9⟩] ∧
        (Status.completed = Status.completed)) ∧
      (listOrders ⟨⟨[⟨0, "A", 1, Status.pending, 3, 3⟩, ⟨1, "B", 2, Status.completed, 4, 9⟩], 2⟩, []⟩
          (some Status.completed)).Pairwise (fun a b => a.created_at ≤ b.created_at) ∧
      listOrders ⟨⟨[⟨0, "A", 1, Status.pending, 3, 3⟩, ⟨1, "B", 2, Status.completed, 4, 9⟩], 2⟩, []⟩ none =
        [⟨0, "A", 1, Status.pending, 3, 3⟩, ⟨1, "B", 2, Status.completed, 4, 9⟩] ∧
      (listOrders ⟨⟨[⟨0, "A", 1, Status.pending, 3, 3⟩, ⟨1, "B", 2, Status.completed, 4, 9⟩], 2⟩, []⟩
          none).Pairwise (fun a b => a.created_at ≤ b.created_at) :=
  let s : Sys := ⟨⟨[⟨0, "A", 1, Status.pending, 3, 3⟩, ⟨1, "B", 2, Status.completed, 4, 9⟩], 2⟩, []⟩
  let h := claim_C5_list_orders s (by constructor <;> simp)
  ⟨h.1 _, h.2.1, h.2.2.1, h.2.2.2⟩

/-- The statistics record returned by `GetStats` (spec §4.1): counts of orders grouped by
status, plus the total. -/
structure Stats where
  total : Nat
  pending : Nat
  processing : Nat
  completed : Nat
  failed : Nat
deriving DecidableEq, Repr

/-- Modelled from the spec: `GetStats()` — counts of orders grouped by status at call
time, with `total` the number of stored orders. -/
def getStats (s : Sys) : Stats :=
  { total := s.store.orders.length
    pending := s.store.orders.countP (fun o => decide (o.status = Status.pending))
    processing := s.store.orders.countP (fun o => decide (o.status = Status.processing))
    completed := s.store.orders.countP (fun o => decide (o.status = Status.completed))
    failed := s.store.orders.countP (fun o => decide (o.status = Status.failed)) }

/-- Every order's status falls in exactly one of the four count buckets, so the four
per-status counts partition the store. -/
theorem length_eq_sum_status_counts (l : List Order) :
    l.length =
      l.countP (fun o => decide (o.status = Status.pending)) +
        l.countP (fun o => decide (o.status = Status.processing)) +
        l.countP (fun o => decide (o.status = Status.completed)) +
        l.countP (fun o => decide (o.status = Status.failed)) := by
  induction l with
  | nil => rfl
  | cons o t ih =>
    rcases ho : o.status <;>
      simp [List.countP_cons, ho, ih] <;> omega

/-- C6: for every store state, `GetStats` satisfies
`total = pending + processing + completed + failed`, each per-status field being the
count of orders currently in that status. -/
theorem claim_C6_stats_sum (s : Sys) :
    (getStats s).total =
        (getStats s).pending + (getStats s).processing +
          (getStats s).completed + (getStats s).failed ∧
      (getStats s).pending =
        s.store.orders.countP (fun o => decide (o.status = Status.pending)) ∧
      (getStats s).processing =
        s.store.orders.countP (fun o => decide (o.status = Status.processing)) ∧
      (getStats s).completed =
        s.store.orders.countP (fun o => decide (o.status = Status.completed)) ∧
      (getStats s).failed =
        s.store.orders.countP (fun o => decide (o.status = Status.failed)) :=
  ⟨length_eq_sum_status_counts s.store.orders, rfl, rfl, rfl, rfl⟩

/-- The health report returned by `HealthCheck` (spec §4.1): exactly three fields, one
per probed component. -/
structure HealthReport where
  api : String
  store : String
  queue : String
deriving DecidableEq, Repr

/-- The reachability of the two external dependencies at probe time. -/
structure Deps where
  storeUp : Bool
  queueUp : Bool
deriving DecidableEq, Repr

/-- Modelled from the spec: the store probe — a dependency error when the store is
unreachable (spec §7, `DependencyError`). -/
def probeStore (d : Deps) : Except String Unit :=
  if d.storeUp then Except.ok () else Except.error "DependencyError"

/-- Modelled from the spec: the queue probe. -/
def probeQueue (d : Deps) : Except String Unit :=
  if d.queueUp then Except.ok () else Except.error "DependencyError"

/-- Modelled from the spec: `HealthCheck()` — each field independently probed and
reported as `healthy` or `unhealthy`; a failing probe is caught and reported, never
propagated, so the check is a total function of the dependency state (it returns
normally — never crashes — whichever dependencies are down). -/
def healthCheck (d : Deps) : HealthReport :=
  { api := "healthy"
    store := match probeStore d with
      | Except.ok _ => "healthy"
      | Except.error _ => "unhealthy"
    queue := match probeQueue d with
      | Except.ok _ => "healthy"
      | Except.error _ => "unhealthy" }

/-- C7: for every dependency state, `HealthCheck` returns (it is total, so it never
throws) a record with exactly the fields `api`, `store`, `queue`, each of which is one of
the two values `healthy` / `unhealthy`. -/
theorem claim_C7_health_check (d : Deps) :
    ((healthCheck d).api = "healthy" ∨ (healthCheck d).api = "unhealthy") ∧
      ((healthCheck d).store = "healthy" ∨ (healthCheck d).store = "unhealthy") ∧
      ((healthCheck d).queue = "healthy" ∨ (healthCheck d).queue = "unhealthy") := by
  rcases d with ⟨su, qu⟩
  cases su <;> cases qu <;> simp [healthCheck, probeStore, probeQueue]

/-- Modelled from the spec: the per-order actions the system performs after creation
(spec §4.2). The worker may begin fulfillment of a dequeued order (step 2) or finish it
on the simulated success/failure path (step 4). -/
inductive WorkerAct
  | start
  | finish (success : Bool)
deriving DecidableEq, Repr

/-- Modelled from the spec: the effect of one worker action on an order's status. The
`start` step is guarded by the current-state check of spec §4.2 (skip unless `pending`);
the `finish` step writes a terminal status from `processing` — the worker only executes
step 4 after its own step 2 put the order in `processing`, and the order is mutated by no
one else (spec §3, single-consumer model §5), so outside `processing` it has no effect. -/
def applyAct (s : Status) (a : WorkerAct) : Status :=
  match a with
  | WorkerAct.start => if s = Status.pending then Status.processing else s
  | WorkerAct.finish ok =>
    if s = Status.processing then
      (if ok then Status.completed else Status.failed)
    else s

/-- The statuses an order passes through, starting from `s`, under a list of actions. -/
def statusTrace (s : Status) : List WorkerAct → List Status
  | [] => [s]
  | a :: as => s :: statusTrace (applyAct s a) as

/-- Collapse consecutive repetitions in an observed status sequence. -/
def dedupConsec : List Status → List Status
  | [] => []
  | [a] => [a]
  | a :: b :: r => if a = b then dedupConsec (b :: r) else a :: dedupConsec (b :: r)

theorem statusTrace_cons_head (s : Status) (acts : List WorkerAct) :
    ∃ t, statusTrace s acts = s :: t := by
  cases acts <;> exact ⟨_, rfl⟩

theorem dedupConsec_cons_self (a : Status) (l : List Status) :
    dedupConsec (a :: a :: l) = dedupConsec (a :: l) := by
  simp [dedupConsec]

theorem dedupConsec_cons_ne (a b : Status) (l : List Status) (h : a ≠ b) :
    dedupConsec (a :: b :: l) = a :: dedupConsec (b :: l) := by
  simp [dedupConsec, h]

/-- Terminal statuses are fixed points of every worker action. -/
theorem applyAct_terminal (s : Status) (hs : s = Status.completed ∨ s = Status.failed)
    (a : WorkerAct) : applyAct s a = s := by
  rcases hs with h | h <;> subst h <;> rcases a with _ | ok <;> simp [applyAct]

/-- From a terminal status the observed sequence collapses to that single status. -/
theorem dedup_trace_terminal (s : Status) (hs : s = Status.completed ∨ s = Status.failed)
    (acts : List WorkerAct) : dedupConsec (statusTrace s acts) = [s] := by
  induction acts with
  | nil => rfl
  | cons a as ih =>
    have hfix : applyAct s a = s := applyAct_terminal s hs a
    obtain ⟨t, ht⟩ := statusTrace_cons_head s as
    calc dedupConsec (statusTrace s (a :: as))
        = dedupConsec (s :: statusTrace s as) := by rw [statusTrace, hfix]
      _ = dedupConsec (s :: s :: t) := by rw [ht]
      _ = dedupConsec (s :: t) := dedupConsec_cons_self s t
      _ = dedupConsec (statusTrace s as) := by rw [ht]
      _ = [s] := ih

/-- From `processing` the collapsed observed sequence is `processing` alone or
`processing` followed by exactly one terminal status. -/
theorem dedup_trace_processing (acts : List WorkerAct) :
    dedupConsec (statusTrace Status.processing acts) = [Status.processing] ∨
      dedupConsec (statusTrace Status.processing acts) = [Status.processing, Status.completed] ∨
      dedupConsec (statusTrace Status.processing acts) = [Status.processing, Status.failed] := by
  induction acts with
  | nil => exact Or.inl rfl
  | cons a as ih =>
    rcases a with _ | ok
    · have hfix : applyAct Status.processing WorkerAct.start = Status.processing := by
        simp [applyAct]
      obtain ⟨t, ht⟩ := statusTrace_cons_head Status.processing as
      have hcollapse :
          dedupConsec (statusTrace Status.processing (WorkerAct.start :: as)) =
            dedupConsec (statusTrace Status.processing as) := by
        calc dedupConsec (statusTrace Status.processing (WorkerAct.start :: as))
            = dedupConsec (Status.processing :: statusTrace Status.processing as) := by
              rw [statusTrace, hfix]
          _ = dedupConsec (Status.processing :: Status.processing :: t) := by rw [ht]
          _ = dedupConsec (Status.processing :: t) := dedupConsec_cons_self _ t
          _ = dedupConsec (statusTrace Status.processing as) := by rw [ht]
      rw [hcollapse]
      exact ih
    · rcases ok with _ | _
      · have hfin : applyAct Status.processing (WorkerAct.finish false) = Status.failed := by
          simp [applyAct]
        obtain ⟨t, ht⟩ := statusTrace_cons_head Status.failed as
        have hterm : dedupConsec (Status.failed :: t) = [Status.failed] := by
          rw [← ht]; exact dedup_trace_terminal Status.failed (Or.inr rfl) as
        refine Or.inr (Or.inr ?_)
        calc dedupConsec (statusTrace Status.processing (WorkerAct.finish false :: as))
            = dedupConsec (Status.processing :: statusTrace Status.failed as) := by
              rw [statusTrace, hfin]
          _ = dedupConsec (Status.processing :: Status.failed :: t) := by rw [ht]
          _ = Status.processing :: dedupConsec (Status.failed :: t) :=
              dedupConsec_cons_ne _ _ t (by decide)
          _ = [Status.processing, Status.failed] := by rw [hterm]
      · have hfin : applyAct Status.processing (WorkerAct.finish true) = Status.completed := by
          simp [applyAct]
        obtain ⟨t, ht⟩ := statusTrace_cons_head Status.completed as
        have hterm : dedupConsec (Status.completed :: t) = [Status.completed] := by
          rw [← ht]; exact dedup_trace_terminal Status.completed (Or.inl rfl) as
        refine Or.inr (Or.inl ?_)
        calc dedupConsec (statusTrace Status.processing (WorkerAct.finish true :: as))
            = dedupConsec (Status.processing :: statusTrace Status.completed as) := by
              rw [statusTrace, hfin]
          _ = dedupConsec (Status.processing :: Status.completed :: t) := by rw [ht]
          _ = Status.processing :: dedupConsec (Status.completed :: t) :=
              dedupConsec_cons_ne _ _ t (by decide)
          _ = [Status.processing, Status.completed] := by rw [hterm]

/-- From `pending` the collapsed observed sequence is a prefix of one of the two
lifecycle paths. -/
theorem dedup_trace_pending (acts : List WorkerAct) :
    dedupConsec (statusTrace Status.pending acts) = [Status.pending] ∨
      dedupConsec (statusTrace Status.pending acts) = [Status.pending, Status.processing] ∨
      dedupConsec (statusTrace Status.pending acts) =
        [Status.pending, Status.processing, Status.completed] ∨
      dedupConsec (statusTrace Status.pending acts) =
        [Status.pending, Status.processing, Status.failed] := by
  induction acts with
  | nil => exact Or.inl rfl
  | cons a as ih =>
    rcases a with _ | ok
    · have hst : applyAct Status.pending WorkerAct.start = Status.processing := by
        simp [applyAct]
      obtain ⟨t, ht⟩ := statusTrace_cons_head Status.processing as
      have hsplit :
          dedupConsec (statusTrace Status.pending (WorkerAct.start :: as)) =
            Status.pending :: dedupConsec (statusTrace Status.processing as) := by
        calc dedupConsec (statusTrace Status.pending (WorkerAct.start :: as))
            = dedupConsec (Status.pending :: statusTrace Status.processing as) := by
              rw [statusTrace, hst]
          _ = dedupConsec (Status.pending :: Status.processing :: t) := by rw [ht]
          _ = Status.pending :: dedupConsec (Status.processing :: t) :=
              dedupConsec_cons_ne _ _ t (by decide)
          _ = Status.pending :: dedupConsec (statusTrace Status.processing as) := by rw [ht]
      rw [hsplit]
      rcases dedup_trace_processing as with h | h | h
      · exact Or.inr (Or.inl (by rw [h]))
      · exact Or.inr (Or.inr (Or.inl (by rw [h])))
      · exact Or.inr (Or.inr (Or.inr (by rw [h])))
    · have hfix : applyAct Status.pending (WorkerAct.finish ok) = Status.pending := by
        simp [applyAct]
      obtain ⟨t, ht⟩ := statusTrace_cons_head Status.pending as
      have hcollapse :
          dedupConsec (statusTrace Status.pending (WorkerAct.finish ok :: as)) =
            dedupConsec (statusTrace Status.pending as) := by
        calc dedupConsec (statusTrace Status.pending (WorkerAct.finish ok :: as))
            = dedupConsec (Status.pending :: statusTrace Status.pending as) := by
              rw [statusTrace, hfix]
          _ = dedupConsec (Status.pending :: Status.pending :: t) := by rw [ht]
          _ = dedupConsec (Status.pending :: t) := dedupConsec_cons_self _ t
          _ = dedupConsec (statusTrace Status.pending as) := by rw [ht]
      rw [hcollapse]
      exact ih

/-- C2: for every order — created in status `pending` — and every sequence of worker
actions, the observed statuses over time, with consecutive repetitions collapsed, form a
subsequence of `pending, processing, completed` or of `pending, processing, failed`: no
action moves the status backward, repeats a status change, or skips `processing`. -/
theorem claim_C2_status_lifecycle (acts : List WorkerAct) :
    List.Sublist (dedupConsec (statusTrace Status.pending acts))
        [Status.pending, Status.processing, Status.completed] ∨
      List.Sublist (dedupConsec (statusTrace Status.pending acts))
        [Status.pending, Status.processing, Status.failed] := by
  rcases dedup_trace_pending acts with h | h | h | h <;> rw [h]
  · exact Or.inl (by decide)
  · exact Or.inl (by decide)
  · exact Or.inl (by decide)
  · exact Or.inr (by decide)

/-- JavaScript `String.prototype.trim()`: remove leading and trailing whitespace
(used by `validateForm` and `handleSubmit` in CreateOrder.jsx). -/
def jsTrim (s : String) : String :=
  ⟨((s.data.dropWhile Char.isWhitespace).reverse.dropWhile Char.isWhitespace).reverse⟩

/-- Numeric value of a list of decimal digit characters. -/
def digitsVal (l : List Char) : Nat :=
  l.foldl (fun acc c => 10 * acc + (c.toNat - '0'.toNat)) 0

/-- Split a character list at the first decimal point. -/
def splitDot : List Char → List Char × Option (List Char)
  | [] => ([], none)
  | '.' :: r => ([], some r)
  | c :: r =>
    let p := splitDot r
    (c :: p.1, p.2)

/-- A finite JavaScript number in the decimal fragment, represented exactly as
`num / 10 ^ places` (the relevant literals — form strings, 0, 1000 — are all exact in
float64, so exact arithmetic is faithful here). -/
structure JsNum where
  num : Int
  places : Nat
deriving DecidableEq, Repr

/-- The rational value of a `JsNum`. -/
def JsNum.toRat (v : JsNum) : ℚ := (v.num : ℚ) / (10 : ℚ) ^ v.places

/-- JavaScript `ToNumber` on strings, decimal fragment: trimmed empty string is 0; an
optional sign followed by `digits`, `digits.digits`, `digits.` or `.digits` is the
corresponding decimal value; anything else (including a lone `.` or sign) is NaN,
returned as `none`. (Hex, `Infinity` and exponent notation are outside this fragment.)
This is the coercion JavaScript applies to `formData.quantity` in the comparisons
`formData.quantity <= 0` and `formData.quantity > 1000` of `validateForm`. -/
def jsToNumber (s : String) : Option JsNum :=
  let t := (jsTrim s).data
  if t.isEmpty then some ⟨0, 0⟩
  else
    let sgn := match t with
      | '-' :: r => (true, r)
      | '+' :: r => (false, r)
      | r => (false, r)
    let parts := splitDot sgn.2
    let mk : Nat → Nat → JsNum := fun n k =>
      ⟨if sgn.1 then -(n : Int) else (n : Int), k⟩
    match parts.2 with
    | none =>
      if !parts.1.isEmpty && parts.1.all Char.isDigit then
        some (mk (digitsVal parts.1) 0)
      else none
    | some fr =>
      if (!parts.1.isEmpty || !fr.isEmpty) && parts.1.all Char.isDigit &&
          fr.all Char.isDigit then
        some (mk (digitsVal parts.1 * 10 ^ fr.length + digitsVal fr) fr.length)
      else none

/-- The JavaScript comparison `s <= n` for a string `s` and integer constant `n`:
`ToNumber(s) ≤ n`, false when `ToNumber(s)` is NaN. Exact:
`num / 10 ^ places ≤ n ↔ num ≤ n * 10 ^ places`. -/
def jsLeInt (s : String) (n : Int) : Bool :=
  match jsToNumber s with
  | some v => decide (v.num ≤ n * (10 : Int) ^ v.places)
  | none => false

/-- The JavaScript comparison `s > n` for a string `s` and integer constant `n`:
`ToNumber(s) > n`, false when `ToNumber(s)` is NaN. -/
def jsGtInt (s : String) (n : Int) : Bool :=
  match jsToNumber s with
  | some v => decide (n * (10 : Int) ^ v.places < v.num)
  | none => false

/-- JavaScript `parseInt(s, 10)`: after trimming and an optional sign, the value of the
longest leading run of decimal digits; NaN (`none`) when that run is empty. Used by
`handleSubmit` in CreateOrder.jsx line 65. -/
def jsParseInt (s : String) : Option Int :=
  let t := (jsTrim s).data
  let sgn := match t with
    | '-' :: r => (true, r)
    | '+' :: r => (false, r)
    | r => (false, r)
  let ds := sgn.2.takeWhile Char.isDigit
  if ds.isEmpty then none
  else some (if sgn.1 then -(digitsVal ds : Int) else (digitsVal ds : Int))

/-- `validateForm` from CreateOrder.jsx lines 36-50, over the two form field strings:
reject when the trimmed item name is empty (`!formData.item_name.trim()`), when the
quantity field is empty (`!formData.quantity`) or compares `<= 0`, or when it compares
`> 1000`; accept otherwise. -/
def validateForm (item_name quantity : String) : Bool :=
  if jsTrim item_name = "" then false
  else if quantity = "" || jsLeInt quantity 0 then false
  else if jsGtInt quantity 1000 then false
  else true

/-- The request body built by `handleSubmit` (CreateOrder.jsx lines 62-66): trimmed item
name and `parseInt(formData.quantity, 10)`; `none` models a NaN quantity. -/
structure OrderRequest where
  item_name : String
  quantity : Option Int
deriving DecidableEq, Repr

/-- `handleSubmit` from CreateOrder.jsx lines 52-92, reduced to its data flow: when
`validateForm` rejects, no create request is issued (`none`); otherwise the request body
carries the trimmed item name and the `parseInt`-converted quantity. -/
def handleSubmit (item_name quantity : String) : Option OrderRequest :=
  if validateForm item_name quantity then
    some { item_name := jsTrim item_name, quantity := jsParseInt quantity }
  else none

/-- A JavaScript value as far as the `colors[status] || 'default'` expression can
observe one: a string, a function (the inherited `Object.prototype` methods), an object
(`Object.prototype` itself, reached through the `__proto__` accessor), or `undefined`. -/
inductive JsValue
  | str (s : String)
  | fn (name : String)
  | obj (name : String)
  | undef
deriving DecidableEq, Repr

/-- JavaScript truthiness of a `JsValue`: among strings only the empty string is falsy;
functions and objects are always truthy; `undefined` is falsy. This is what `||`
tests. -/
def JsValue.truthy : JsValue → Bool
  | JsValue.str s => !(s == "")
  | JsValue.fn _ => true
  | JsValue.obj _ => true
  | JsValue.undef => false

/-- The function-valued members every object literal inherits from `Object.prototype`
(ECMA-262, including the Annex B accessor helpers present in all mainstream engines). -/
def protoFnNames : List String :=
  ["constructor", "hasOwnProperty", "isPrototypeOf", "propertyIsEnumerable",
   "toLocaleString", "toString", "valueOf",
   "__defineGetter__", "__defineSetter__", "__lookupGetter__", "__lookupSetter__"]

/-- All keys on which a lookup in a plain object literal falls through to an inherited
`Object.prototype` member: the function-valued members plus the `__proto__` accessor. -/
def protoInheritedNames : List String := "__proto__" :: protoFnNames

/-- The JavaScript property read `colors[status]` on the object literal of
`getStatusColor` (CreateOrder.jsx lines 427-432): the bracket lookup is `[[Get]]`, so
after the four own properties it consults the prototype chain — `__proto__` yields
`Object.prototype` itself, the inherited method names yield the corresponding functions
— and only otherwise is the result `undefined`. -/
def colorsGet (status : String) : JsValue :=
  if status = "pending" then JsValue.str "warning"
  else if status = "processing" then JsValue.str "info"
  else if status = "completed" then JsValue.str "success"
  else if status = "failed" then JsValue.str "error"
  else if status = "__proto__" then JsValue.obj "Object.prototype"
  else if status ∈ protoFnNames then JsValue.fn status
  else JsValue.undef

/-- `getStatusColor` from CreateOrder.jsx lines 426-434 (OrdersList component):
`colors[status] || 'default'` — the `[[Get]]` lookup on the `colors` object literal,
falling back to `'default'` only when the looked-up value is falsy. -/
def getStatusColor (status : String) : JsValue :=
  if (colorsGet status).truthy then colorsGet status else JsValue.str "default"

/-- Counterexample to C8 as stated: the quantity field `".5"` is accepted by
`validateForm` (its JavaScript numeric value is 0.5, which is neither `<= 0` nor
`> 1000`), and `0 < Number(".5") < 1` — witnessed exactly, `Number(".5") = 5 / 10 ^ 1`
with `0 < 5 < 10 ^ 1` — yet `parseInt(".5", 10)` is NaN (there is no leading digit), so
the submitted quantity is NaN, not 0. -/
theorem claim_C8_counterexample :
    validateForm "Laptop" ".5" = true ∧
      jsToNumber ".5" = some ⟨5, 1⟩ ∧ (0 : Int) < 5 ∧ (5 : Int) < 10 ^ 1 ∧
      handleSubmit "Laptop" ".5" = some ⟨"Laptop", none⟩ ∧
      jsParseInt ".5" ≠ some 0 := by
  decide

/-- C8 (amended): for every quantity field string `q` that `validateForm` accepts, the
create request body carries `quantity = parseInt(q, 10)`; in particular some accepted
inputs — e.g. `q = "0.5"`, whose JavaScript numeric value `5 / 10 ^ 1` lies strictly
between 0 and 1 — submit quantity 0, outside the range [1,1000] the form is meant to
enforce. -/
theorem claim_C8_parse_int_escape :
    (∀ item_name q, validateForm item_name q = true →
        handleSubmit item_name q = some ⟨jsTrim item_name, jsParseInt q⟩) ∧
      validateForm "Laptop" "0.5" = true ∧
      jsToNumber "0.5" = some ⟨5, 1⟩ ∧ (0 : Int) < 5 ∧ (5 : Int) < 10 ^ 1 ∧
      handleSubmit "Laptop" "0.5" = some ⟨"Laptop", some 0⟩ ∧
      ¬(1 ≤ (0 : Int) ∧ (0 : Int) ≤ 1000) := by
  refine ⟨fun item_name q h => by simp [handleSubmit, h], ?_, ?_, ?_, ?_, ?_, ?_⟩ <;> decide

theorem claim_C8_witness :
    handleSubmit "Laptop" "0.5" = some ⟨jsTrim "Laptop", jsParseInt "0.5"⟩ :=
  claim_C8_parse_int_escape.1 "Laptop" "0.5" (by decide)

/-- C9: the item_name a submission sends is exactly the trimmed field value, and a field
value consisting only of whitespace trims to the empty string, so it is rejected as
missing and no request is sent. -/
theorem claim_C9_trimmed_name :
    (∀ item_name q r, handleSubmit item_name q = some r → r.item_name = jsTrim item_name) ∧
      (∀ item_name q, item_name.data.all Char.isWhitespace = true →
        handleSubmit item_name q = none) := by
  constructor
  · intro item_name q r h
    by_cases hv : validateForm item_name q = true
    · simp only [handleSubmit, hv, if_true, Option.some.injEq] at h
      rw [← h]
    · simp [handleSubmit, hv] at h
  · intro item_name q h
    have h1 : item_name.data.dropWhile Char.isWhitespace = [] := by
      rw [List.dropWhile_eq_nil_iff]
      intro x hx
      exact List.all_eq_true.mp h x hx
    have h2 : jsTrim item_name = "" := by simp [jsTrim, h1]
    simp [handleSubmit, validateForm, h2]

theorem claim_C9_witness :
    ({ item_name := "Phone", quantity := some 5 } : OrderRequest).item_name =
        jsTrim "  Phone " ∧
      handleSubmit "   " "5" = none :=
  ⟨claim_C9_trimmed_name.1 "  Phone " "5" { item_name := "Phone", quantity := some 5 }
      (by decide),
    claim_C9_trimmed_name.2 "   " "5" (by decide)⟩

/-- Counterexample to C10 as stated: at `status = "constructor"` the lookup
`colors["constructor"]` finds the inherited `Object.prototype.constructor` function,
which is truthy, so `getStatusColor` returns that function — none of the five chip-color
strings and in particular not `'default'` — although `"constructor"` is not one of the
four statuses. -/
theorem claim_C10_counterexample :
    getStatusColor "constructor" = JsValue.fn "constructor" ∧
      ¬(getStatusColor "constructor" = JsValue.str "warning" ∨
        getStatusColor "constructor" = JsValue.str "info" ∨
        getStatusColor "constructor" = JsValue.str "success" ∨
        getStatusColor "constructor" = JsValue.str "error" ∨
        getStatusColor "constructor" = JsValue.str "default") ∧
      ¬("constructor" = "pending" ∨ "constructor" = "processing" ∨
        "constructor" = "completed" ∨ "constructor" = "failed") := by
  decide

/-- C10 (amended): for every status string that does not name an inherited
`Object.prototype` member, `getStatusColor` returns one of `warning`, `info`, `success`,
`error`, `default`, and returns `default` exactly when the input is none of `pending`,
`processing`, `completed`, `failed`; on the inherited member names the lookup yields the
inherited truthy value, which is returned in place of `'default'`. -/
theorem claim_C10_status_color :
    (∀ s : String, s ∉ protoInheritedNames →
        (getStatusColor s = JsValue.str "warning" ∨ getStatusColor s = JsValue.str "info" ∨
            getStatusColor s = JsValue.str "success" ∨ getStatusColor s = JsValue.str "error" ∨
            getStatusColor s = JsValue.str "default") ∧
          (getStatusColor s = JsValue.str "default" ↔
            ¬(s = "pending" ∨ s = "processing" ∨ s = "completed" ∨ s = "failed"))) ∧
      (∀ t ∈ protoInheritedNames, (colorsGet t).truthy = true ∧
        getStatusColor t = colorsGet t ∧ getStatusColor t ≠ JsValue.str "default") := by
  constructor
  · intro s h
    have hp : s ≠ "__proto__" := fun hs => h (hs ▸ List.mem_cons_self _ _)
    have hf : s ∉ protoFnNames := fun hs => h (List.mem_cons_of_mem _ hs)
    by_cases h1 : s = "pending"
    · subst h1; exact ⟨Or.inl (by decide), by decide⟩
    by_cases h2 : s = "processing"
    · subst h2; exact ⟨Or.inr (Or.inl (by decide)), by decide⟩
    by_cases h3 : s = "completed"
    · subst h3; exact ⟨Or.inr (Or.inr (Or.inl (by decide))), by decide⟩
    by_cases h4 : s = "failed"
    · subst h4; exact ⟨Or.inr (Or.inr (Or.inr (Or.inl (by decide)))), by decide⟩
    have hc : colorsGet s = JsValue.undef := by
      simp [colorsGet, h1, h2, h3, h4, hp, hf]
    have hg : getStatusColor s = JsValue.str "default" := by
      simp [getStatusColor, hc, JsValue.truthy]
    exact ⟨Or.inr (Or.inr (Or.inr (Or.inr hg))), by simp [hg, h1, h2, h3, h4]⟩
  · decide

theorem claim_C10_witness :
    (getStatusColor "shipped" = JsValue.str "warning" ∨
        getStatusColor "shipped" = JsValue.str "info" ∨
        getStatusColor "shipped" = JsValue.str "success" ∨
        getStatusColor "shipped" = JsValue.str "error" ∨
        getStatusColor "shipped" = JsValue.str "default") ∧
      (getStatusColor "shipped" = JsValue.str "default" ↔
        ¬("shipped" = "pending" ∨ "shipped" = "processing" ∨
          "shipped" = "completed" ∨ "shipped" = "failed")) :=
  claim_C10_status_color.1 "shipped" (by decide)
